import Mathlib

/-!
# TrackFi analytical core — verification development

Shallow embedding of the three analytical components of the TrackFi
household expense tracker:

* the recurring-expense detector (`RecurringExpenses.tsx`): grouping by
  normalized description, interval statistics, frequency classification,
  consistency filtering, monthly-equivalent ranking, price-change detection;
* the savings-rate aggregator (`SavingsRate` component): monthly bucketing,
  savings-rate computation, rolling averages, years-to-FI projection;
* the budget aggregator (`Summary` component): per-category spending for a
  selected month against budget limits.

Modelling conventions:

* JavaScript strings are modelled as `List Char` (`Str`); `trim`,
  `toLowerCase`, `slice`, `startsWith` and `localeCompare` become the
  corresponding list operations (for ISO `YYYY-MM`/`YYYY-MM-DD` strings the
  `localeCompare` order is the lexicographic character order).
* JavaScript numbers are modelled as exact rationals `ℚ` (reals `ℝ` where
  the source uses transcendental functions).
* Calendar dates (`YYYY-MM-DD` strings parsed to UTC-midnight `Date`s in the
  source) are modelled in the recurrence detector by their epoch-day number
  `ℤ`: `daysBetween` becomes absolute integer difference and the
  `localeCompare` sort on ISO date strings coincides with the `ℤ` order.
* A JavaScript insertion-ordered `Map` used for grouping becomes an
  association list updated by `upsert`.
* `Array.prototype.sort` with a consistent comparator is modelled by
  `List.insertionSort` with the corresponding relation.
* `Math.round` (half towards positive infinity) is `⌊x + 1/2⌋`.
-/

set_option synthInstance.maxHeartbeats 800000

namespace TrackFi

/-- JavaScript strings, modelled as their character sequences. -/
abbrev Str := List Char

/-- One update step of a JavaScript insertion-ordered `Map` used as an
accumulator: `map.set(k, add (map.get(k) ?? zero) v)` on an association
list.  If the key is present its value is combined with `add`; otherwise the
pair is appended, preserving first-insertion key order. -/
def upsert {V : Type} (add : V → V → V) : List (Str × V) → Str → V → List (Str × V)
  | [], k, v => [(k, v)]
  | (k2, w) :: rest, k, v =>
    if k2 = k then (k2, add w v) :: rest else (k2, w) :: upsert add rest k v

/-- Association-list lookup (`Map.get`). -/
def alookup {V : Type} : List (Str × V) → Str → Option V
  | [], _ => none
  | (k2, v) :: rest, k => if k2 = k then some v else alookup rest k

/-- `Map.get(k) ?? z`. -/
def valAt {V : Type} (z : V) (m : List (Str × V)) (k : Str) : V :=
  (alookup m k).getD z

/-- Fold a list of items into an insertion-ordered accumulator map, exactly
as the source components build their grouping `Map`s. -/
def accumulate {α V : Type} (add : V → V → V) (keyOf : α → Str) (valOf : α → V)
    (ts : List α) : List (Str × V) :=
  ts.foldl (fun m t => upsert add m (keyOf t) (valOf t)) []

/-- The combined contribution of the items of a list whose key is `k`. -/
def sumContrib {α V : Type} (add : V → V → V) (z : V) (keyOf : α → Str)
    (valOf : α → V) : List α → Str → V
  | [], _ => z
  | t :: ts, k =>
    if keyOf t = k then add (valOf t) (sumContrib add z keyOf valOf ts k)
    else sumContrib add z keyOf valOf ts k

theorem alookup_upsert_self {V : Type} (add : V → V → V) (m : List (Str × V)) (k v) :
    alookup (upsert add m k v) k =
      some ((alookup m k).elim v (fun w => add w v)) := by
  induction m with
  | nil => simp [upsert, alookup]
  | cons hd rest ih =>
    obtain ⟨a, w⟩ := hd
    by_cases ha : a = k
    · subst ha
      simp [upsert, alookup]
    · simp [upsert, alookup, ha, ih]

theorem alookup_upsert_ne {V : Type} (add : V → V → V) (m : List (Str × V)) (k v k2)
    (h : k2 ≠ k) :
    alookup (upsert add m k v) k2 = alookup m k2 := by
  induction m with
  | nil => simp [upsert, alookup, Ne.symm h]
  | cons hd rest ih =>
    obtain ⟨a, w⟩ := hd
    by_cases ha : a = k
    · subst ha
      simp [upsert, alookup, Ne.symm h]
    · by_cases hak : a = k2
      · subst hak
        simp [upsert, alookup, ha]
      · simp [upsert, alookup, ha, hak, ih]

theorem valAt_upsert {V : Type} (add : V → V → V) (z : V) (hz : ∀ v, add z v = v)
    (m : List (Str × V)) (k v k2) :
    valAt z (upsert add m k v) k2 =
      if k2 = k then add (valAt z m k2) v else valAt z m k2 := by
  by_cases h : k2 = k
  · subst h
    rw [valAt, alookup_upsert_self, if_pos rfl]
    cases halo : alookup m k2 <;> simp [valAt, halo, hz]
  · rw [valAt, alookup_upsert_ne add m k v k2 h, if_neg h, valAt]

theorem valAt_foldl {α V : Type} (add : V → V → V) (z : V)
    (hz : ∀ v, add z v = v) (hzr : ∀ v, add v z = v)
    (hassoc : ∀ a b c, add (add a b) c = add a (add b c))
    (keyOf : α → Str) (valOf : α → V) :
    ∀ (ts : List α) (acc : List (Str × V)) (k : Str),
      valAt z (ts.foldl (fun m t => upsert add m (keyOf t) (valOf t)) acc) k
        = add (valAt z acc k) (sumContrib add z keyOf valOf ts k) := by
  intro ts
  induction ts with
  | nil =>
    intro acc k
    simp [sumContrib, hzr]
  | cons t ts ih =>
    intro acc k
    simp only [List.foldl_cons, sumContrib]
    rw [ih, valAt_upsert add z hz]
    by_cases h : keyOf t = k
    · simp [h, hassoc]
    · simp [h, Ne.symm h]

theorem valAt_accumulate {α V : Type} (add : V → V → V) (z : V)
    (hz : ∀ v, add z v = v) (hzr : ∀ v, add v z = v)
    (hassoc : ∀ a b c, add (add a b) c = add a (add b c))
    (keyOf : α → Str) (valOf : α → V) (ts : List α) (k : Str) :
    valAt z (accumulate add keyOf valOf ts) k = sumContrib add z keyOf valOf ts k := by
  have h := valAt_foldl add z hz hzr hassoc keyOf valOf ts [] k
  simpa [accumulate, valAt, alookup, hz] using h

theorem keys_upsert {V : Type} (add : V → V → V) (m : List (Str × V)) (k v) :
    (upsert add m k v).map Prod.fst =
      if k ∈ m.map Prod.fst then m.map Prod.fst else m.map Prod.fst ++ [k] := by
  induction m with
  | nil => simp [upsert]
  | cons hd rest ih =>
    obtain ⟨a, w⟩ := hd
    by_cases ha : a = k
    · subst ha
      simp [upsert]
    · simp only [upsert, if_neg ha, List.map_cons]
      rw [ih]
      by_cases hm : k ∈ rest.map Prod.fst <;>
        simp [hm, ha, Ne.symm ha]

theorem mem_keys_upsert {V : Type} (add : V → V → V) (m : List (Str × V)) (k v k2) :
    k2 ∈ (upsert add m k v).map Prod.fst ↔ k2 ∈ m.map Prod.fst ∨ k2 = k := by
  rw [keys_upsert]
  by_cases hm : k ∈ m.map Prod.fst
  · simp only [hm, if_true]
    exact ⟨Or.inl, fun h => h.elim id (fun e => e ▸ hm)⟩
  · simp [hm]

theorem nodup_keys_upsert {V : Type} (add : V → V → V) (m : List (Str × V)) (k v)
    (h : (m.map Prod.fst).Nodup) : ((upsert add m k v).map Prod.fst).Nodup := by
  rw [keys_upsert]
  by_cases hm : k ∈ m.map Prod.fst
  · simpa [hm]
  · simp only [hm, if_false]
    exact h.append (List.nodup_singleton k)
      (by simpa [List.disjoint_singleton] using hm)

theorem nodup_keys_foldl {α V : Type} (add : V → V → V)
    (keyOf : α → Str) (valOf : α → V) :
    ∀ (ts : List α) (acc : List (Str × V)), (acc.map Prod.fst).Nodup →
      ((ts.foldl (fun m t => upsert add m (keyOf t) (valOf t)) acc).map Prod.fst).Nodup := by
  intro ts
  induction ts with
  | nil => intro acc h; simpa using h
  | cons t ts ih =>
    intro acc h
    simp only [List.foldl_cons]
    exact ih _ (nodup_keys_upsert add acc (keyOf t) (valOf t) h)

theorem nodup_keys_accumulate {α V : Type} (add : V → V → V)
    (keyOf : α → Str) (valOf : α → V) (ts : List α) :
    ((accumulate add keyOf valOf ts).map Prod.fst).Nodup :=
  nodup_keys_foldl add keyOf valOf ts [] (by simp)

theorem mem_keys_foldl {α V : Type} (add : V → V → V)
    (keyOf : α → Str) (valOf : α → V) :
    ∀ (ts : List α) (acc : List (Str × V)) (k : Str),
      k ∈ (ts.foldl (fun m t => upsert add m (keyOf t) (valOf t)) acc).map Prod.fst ↔
        k ∈ acc.map Prod.fst ∨ ∃ t ∈ ts, keyOf t = k := by
  intro ts
  induction ts with
  | nil => intro acc k; simp
  | cons t ts ih =>
    intro acc k
    simp only [List.foldl_cons, ih, mem_keys_upsert, List.mem_cons]
    constructor
    · rintro ((h | h) | h)
      · exact Or.inl h
      · exact Or.inr ⟨t, Or.inl rfl, h.symm⟩
      · obtain ⟨u, hu, hk⟩ := h
        exact Or.inr ⟨u, Or.inr hu, hk⟩
    · rintro (h | ⟨u, (rfl | hu), hk⟩)
      · exact Or.inl (Or.inl h)
      · exact Or.inl (Or.inr hk.symm)
      · exact Or.inr ⟨u, hu, hk⟩

theorem mem_keys_accumulate {α V : Type} (add : V → V → V)
    (keyOf : α → Str) (valOf : α → V) (ts : List α) (k : Str) :
    k ∈ (accumulate add keyOf valOf ts).map Prod.fst ↔ ∃ t ∈ ts, keyOf t = k := by
  simpa [accumulate] using mem_keys_foldl add keyOf valOf ts [] k

theorem alookup_eq_some_of_mem {V : Type} {m : List (Str × V)} {k : Str} {v : V}
    (hnd : (m.map Prod.fst).Nodup) (h : (k, v) ∈ m) : alookup m k = some v := by
  induction m with
  | nil => simp at h
  | cons hd rest ih =>
    obtain ⟨a, w⟩ := hd
    rcases List.mem_cons.mp h with heq | hmem
    · have h1 : k = a := congrArg Prod.fst heq
      have h2 : v = w := congrArg Prod.snd heq
      subst h1
      subst h2
      simp [alookup]
    · have hak : a ≠ k := by
        rintro rfl
        have hk : a ∈ rest.map Prod.fst := by
          exact List.mem_map.mpr ⟨(a, v), hmem, rfl⟩
        exact (List.nodup_cons.mp (by simpa using hnd)).1 hk
      simp only [alookup, if_neg hak]
      exact ih (List.nodup_cons.mp (by simpa using hnd)).2 hmem

/-- `Math.round`: round half towards positive infinity. -/
def jsRound (x : ℚ) : ℤ := ⌊x + 1 / 2⌋

/-- Round to one decimal place, as `Math.round(x * 10) / 10`. -/
def round1 (x : ℚ) : ℚ := (jsRound (x * 10) : ℚ) / 10

theorem round1_zero : round1 0 = 0 := by
  norm_num [round1, jsRound]

namespace Recurring

/-- The transaction fields read by the recurrence detector
(`RecurringExpenses.tsx`).  `date` is the epoch-day number of the ISO
`YYYY-MM-DD` date string: the `localeCompare` order of such strings is the
`ℤ` order, and the UTC-midnight millisecond difference divided by
86 400 000 is the `ℤ` difference. -/
structure DbTransaction where
  date : ℤ
  description : Str
  amount : ℚ
  category : Str
  is_income : Bool
deriving DecidableEq, Inhabited

/-- `String.prototype.trim`: strip leading and trailing whitespace. -/
def trim (s : Str) : Str :=
  ((s.dropWhile Char.isWhitespace).reverse.dropWhile Char.isWhitespace).reverse

/-- `String.prototype.toLowerCase`, characterwise. -/
def toLower (s : Str) : Str := s.map Char.toLower

/-- The grouping key: `description.trim().toLowerCase()`. -/
def normKey (s : Str) : Str := toLower (trim s)

/-- `daysBetween`: absolute day difference of two dates. -/
def daysBetween (a b : ℤ) : ℚ := |(b : ℚ) - (a : ℚ)|

/-- `addDays`: shift a date by a whole number of days. -/
def addDays (dateDay : ℤ) (days : ℤ) : ℤ := dateDay + days

/-- The four frequency buckets of `RecurringItem['frequency']`. -/
inductive Frequency where
  | weekly
  | biweekly
  | monthly
  | quarterly
deriving DecidableEq, Inhabited

/-- `classifyFrequency`: classify a median interval into a bucket by
inclusive closed ranges, or reject it. -/
def classifyFrequency (medianInterval : ℚ) : Option Frequency :=
  if 5 ≤ medianInterval ∧ medianInterval ≤ 10 then some Frequency.weekly
  else if 12 ≤ medianInterval ∧ medianInterval ≤ 18 then some Frequency.biweekly
  else if 25 ≤ medianInterval ∧ medianInterval ≤ 38 then some Frequency.monthly
  else if 80 ≤ medianInterval ∧ medianInterval ≤ 100 then some Frequency.quarterly
  else none

/-- `frequencyToDays`. -/
def frequencyToDays : Frequency → ℤ
  | Frequency.weekly => 7
  | Frequency.biweekly => 14
  | Frequency.monthly => 30
  | Frequency.quarterly => 90

/-- `monthlyEquivalent`: normalize an amount to an average-month cost. -/
def monthlyEquivalent (amount : ℚ) : Frequency → ℚ
  | Frequency.weekly => amount * 4.33
  | Frequency.biweekly => amount * 2.17
  | Frequency.monthly => amount
  | Frequency.quarterly => amount / 3

/-- `median`: sorted middle value; average of the two middle values when
the count is even.  (On the empty list the source indexes out of range;
the detector only calls it on nonempty interval lists.) -/
def median (values : List ℚ) : ℚ :=
  let sorted := values.insertionSort (· ≤ ·)
  let mid := sorted.length / 2
  if sorted.length % 2 = 0 then (sorted.getD (mid - 1) 0 + sorted.getD mid 0) / 2
  else sorted.getD mid 0

/-- The date comparison used to sort each group (oldest first);
`a.date.localeCompare(b.date)` on ISO strings is the epoch-day order. -/
def dateLe (a b : DbTransaction) : Prop := a.date ≤ b.date

instance : DecidableRel dateLe := fun a b =>
  inferInstanceAs (Decidable (a.date ≤ b.date))

instance : IsTotal DbTransaction dateLe := ⟨fun a b => le_total a.date b.date⟩

instance : IsTrans DbTransaction dateLe := ⟨fun _ _ _ h1 h2 => le_trans h1 h2⟩

/-- Sort a group's transactions ascending by date. -/
def sortByDate (group : List DbTransaction) : List DbTransaction :=
  group.insertionSort dateLe

/-- The consecutive day-intervals of a date-sorted group. -/
def intervalsOf (sorted : List DbTransaction) : List ℚ :=
  (sorted.zip sorted.tail).map (fun p => daysBetween p.1.date p.2.date)

/-- `mean` of the intervals (`reduce(...)/length`). -/
def mean (l : List ℚ) : ℚ := l.sum / (l.length : ℚ)

/-- Population variance of the intervals: divide by `N`, not `N - 1`. -/
def variance (l : List ℚ) : ℚ :=
  (l.map (fun v => (v - mean l) ^ 2)).sum / (l.length : ℚ)

/-- The derived recurring-charge record. -/
structure RecurringItem where
  description : Str
  category : Str
  avgAmount : ℚ
  frequency : Frequency
  occurrences : ℕ
  lastDate : ℤ
  nextExpected : ℤ
  amounts : List ℚ
  priceChange : Option ℚ
deriving DecidableEq, Inhabited

/-- The price-change block of `detectRecurring`: percentage delta between
the last two amounts, only when the previous amount is positive and the
absolute difference exceeds `0.01`; `Math.round(x*1000)/10` rounds the
percentage to one decimal place. -/
def detectPriceChange (amounts : List ℚ) : Option ℚ :=
  if 2 ≤ amounts.length then
    let prev := amounts.getD (amounts.length - 2) 0
    let lastA := amounts.getD (amounts.length - 1) 0
    if 0 < prev ∧ (0.01 : ℚ) < |lastA - prev| then
      some ((jsRound ((lastA - prev) / prev * 1000) : ℚ) / 10)
    else none
  else none

/-- Build the `RecurringItem` pushed for a surviving group (date-sorted). -/
def buildItem (sorted : List DbTransaction) (frequency : Frequency) : RecurringItem :=
  let amounts := sorted.map DbTransaction.amount
  let lastTxn := sorted.getLastD default
  { description := lastTxn.description
    category := lastTxn.category
    avgAmount := amounts.sum / (amounts.length : ℚ)
    frequency := frequency
    occurrences := sorted.length
    lastDate := lastTxn.date
    nextExpected := addDays lastTxn.date (frequencyToDays frequency)
    amounts := amounts
    priceChange := detectPriceChange amounts }

/-- The per-group body of `detectRecurring`'s loop: reject groups with
fewer than 2 members, classify the median interval, reject irregular
spacing, and otherwise build the item.  The source compares
`Math.sqrt(variance) > medianInterval * 0.35`; both sides are nonnegative,
so the comparison is made on squares to stay inside `ℚ` (the equivalence
with the square-root form is proved below). -/
def processGroup (group : List DbTransaction) : Option RecurringItem :=
  if group.length < 2 then none
  else
    let sorted := sortByDate group
    let intervals := intervalsOf sorted
    let medianInterval := median intervals
    match classifyFrequency medianInterval with
    | none => none
    | some frequency =>
      if (medianInterval * (0.35 : ℚ)) ^ 2 < variance intervals then none
      else some (buildItem sorted frequency)

/-- Group the expense transactions by normalized description, preserving
the `Map` insertion order. -/
def groupByDescription (ts : List DbTransaction) : List (Str × List DbTransaction) :=
  accumulate (· ++ ·) (fun t => normKey t.description) (fun t => [t]) ts

/-- The final comparator: descending by monthly-equivalent cost. -/
def itemGe (a b : RecurringItem) : Prop :=
  monthlyEquivalent b.avgAmount b.frequency ≤ monthlyEquivalent a.avgAmount a.frequency

instance : DecidableRel itemGe := fun a b =>
  inferInstanceAs (Decidable
    (monthlyEquivalent b.avgAmount b.frequency ≤ monthlyEquivalent a.avgAmount a.frequency))

instance : IsTotal RecurringItem itemGe := ⟨fun _ _ => le_total _ _⟩

instance : IsTrans RecurringItem itemGe := ⟨fun _ _ _ h1 h2 => le_trans h2 h1⟩

/-- `detectRecurring`: filter to expenses, group by normalized description,
process each group, and sort the results by descending monthly cost. -/
def detectRecurring (transactions : List DbTransaction) : List RecurringItem :=
  let expenses := transactions.filter (fun t => !t.is_income)
  let groups := groupByDescription expenses
  let results := groups.filterMap (fun g => processGroup g.2)
  results.insertionSort itemGe

theorem processGroup_eq_some_iff (g : List DbTransaction) (item : RecurringItem) :
    processGroup g = some item ↔
      2 ≤ g.length ∧
      ∃ f, classifyFrequency (median (intervalsOf (sortByDate g))) = some f ∧
        ¬ (median (intervalsOf (sortByDate g)) * (0.35 : ℚ)) ^ 2 <
            variance (intervalsOf (sortByDate g)) ∧
        item = buildItem (sortByDate g) f := by
  by_cases h2 : g.length < 2
  · have : ¬ 2 ≤ g.length := by omega
    simp [processGroup, h2, this]
  · have h2le : 2 ≤ g.length := by omega
    cases hcl : classifyFrequency (median (intervalsOf (sortByDate g))) with
    | none => simp [processGroup, h2, hcl]
    | some f =>
      by_cases hv : (median (intervalsOf (sortByDate g)) * (0.35 : ℚ)) ^ 2 <
          variance (intervalsOf (sortByDate g))
      · simp [processGroup, h2, hcl, hv]
      · simp only [processGroup, if_neg h2, hcl, if_neg hv]
        constructor
        · intro h
          exact ⟨h2le, f, rfl, hv, (Option.some.inj h).symm⟩
        · rintro ⟨-, f2, hf2, -, rfl⟩
          obtain rfl : f = f2 := Option.some.inj hf2
          rfl

theorem mem_detectRecurring {ts : List DbTransaction} {item : RecurringItem}
    (h : item ∈ detectRecurring ts) :
    ∃ k g, (k, g) ∈ groupByDescription (ts.filter (fun t => !t.is_income)) ∧
      processGroup g = some item := by
  unfold detectRecurring at h
  rw [(List.perm_insertionSort itemGe _).mem_iff, List.mem_filterMap] at h
  obtain ⟨kg, hkg, hp⟩ := h
  exact ⟨kg.1, kg.2, hkg, hp⟩

theorem sumContrib_filter {α : Type} (keyOf : α → Str) (ts : List α) (k : Str) :
    sumContrib (· ++ ·) [] keyOf (fun t => [t]) ts k
      = ts.filter (fun t => decide (keyOf t = k)) := by
  induction ts with
  | nil => simp [sumContrib]
  | cons t ts ih =>
    by_cases h : keyOf t = k <;> simp [sumContrib, h, ih, List.filter_cons]

theorem mem_groupByDescription {ts : List DbTransaction} {k : Str}
    {g : List DbTransaction} (h : (k, g) ∈ groupByDescription ts) :
    g = ts.filter (fun t => decide (normKey t.description = k)) := by
  have hnd := nodup_keys_accumulate (V := List DbTransaction) (· ++ ·)
    (fun t => normKey t.description) (fun t => [t]) ts
  have hl : alookup (groupByDescription ts) k = some g :=
    alookup_eq_some_of_mem hnd h
  have hval : valAt [] (groupByDescription ts) k = g := by
    simp [valAt, hl]
  rw [groupByDescription, valAt_accumulate (· ++ ·) []
    (fun v => List.nil_append v) (fun v => List.append_nil v)
    (fun a b c => List.append_assoc a b c), sumContrib_filter] at hval
  exact hval.symm

theorem sorted_le_getLast {l : List DbTransaction} (hs : List.Sorted dateLe l)
    (hne : l ≠ []) : ∀ u ∈ l, u.date ≤ (l.getLast hne).date := by
  induction l with
  | nil => simp
  | cons a l ih =>
    intro u hu
    cases l with
    | nil =>
      obtain rfl : u = a := by simpa using hu
      simp [List.getLast]
    | cons b l2 =>
      have hcons := List.sorted_cons.mp hs
      rw [List.getLast_cons (List.cons_ne_nil b l2)]
      rcases List.mem_cons.mp hu with rfl | hu2
      · exact hcons.1 _ (List.getLast_mem (List.cons_ne_nil b l2))
      · exact ih hcons.2 (List.cons_ne_nil b l2) u hu2

theorem getLastD_of_ne_nil {l : List DbTransaction} (hne : l ≠ []) :
    l.getLastD default = l.getLast hne := by
  rw [List.getLastD_eq_getLast?, List.getLast?_eq_getLast_of_ne_nil hne,
    Option.getD_some]

theorem classify_weekly_iff (m : ℚ) :
    classifyFrequency m = some Frequency.weekly ↔ 5 ≤ m ∧ m ≤ 10 := by
  unfold classifyFrequency
  split_ifs with h1 h2 h3 h4 <;> simp_all

theorem classify_biweekly_iff (m : ℚ) :
    classifyFrequency m = some Frequency.biweekly ↔ 12 ≤ m ∧ m ≤ 18 := by
  constructor
  · intro h
    unfold classifyFrequency at h
    split_ifs at h with h1 h2 h3 h4 <;> simp_all
  · rintro ⟨ha, hb⟩
    have h1 : ¬ (5 ≤ m ∧ m ≤ 10) := by rintro ⟨-, hc⟩; linarith
    unfold classifyFrequency
    rw [if_neg h1, if_pos ⟨ha, hb⟩]

theorem classify_monthly_iff (m : ℚ) :
    classifyFrequency m = some Frequency.monthly ↔ 25 ≤ m ∧ m ≤ 38 := by
  constructor
  · intro h
    unfold classifyFrequency at h
    split_ifs at h with h1 h2 h3 h4 <;> simp_all
  · rintro ⟨ha, hb⟩
    have h1 : ¬ (5 ≤ m ∧ m ≤ 10) := by rintro ⟨-, hc⟩; linarith
    have h2 : ¬ (12 ≤ m ∧ m ≤ 18) := by rintro ⟨-, hc⟩; linarith
    unfold classifyFrequency
    rw [if_neg h1, if_neg h2, if_pos ⟨ha, hb⟩]

theorem classify_quarterly_iff (m : ℚ) :
    classifyFrequency m = some Frequency.quarterly ↔ 80 ≤ m ∧ m ≤ 100 := by
  constructor
  · intro h
    unfold classifyFrequency at h
    split_ifs at h with h1 h2 h3 h4 <;> simp_all
  · rintro ⟨ha, hb⟩
    have h1 : ¬ (5 ≤ m ∧ m ≤ 10) := by rintro ⟨-, hc⟩; linarith
    have h2 : ¬ (12 ≤ m ∧ m ≤ 18) := by rintro ⟨-, hc⟩; linarith
    have h3 : ¬ (25 ≤ m ∧ m ≤ 38) := by rintro ⟨-, hc⟩; linarith
    unfold classifyFrequency
    rw [if_neg h1, if_neg h2, if_neg h3, if_pos ⟨ha, hb⟩]

theorem getD_nonneg {l : List ℚ} (h : ∀ x ∈ l, 0 ≤ x) (i : ℕ) : 0 ≤ l.getD i 0 := by
  by_cases hi : i < l.length
  · rw [List.getD_eq_getElem _ _ hi]
    exact h _ (List.getElem_mem hi)
  · rw [List.getD_eq_default _ _ (by omega)]

theorem median_nonneg {l : List ℚ} (h : ∀ x ∈ l, 0 ≤ x) : 0 ≤ median l := by
  have hs : ∀ x ∈ l.insertionSort (· ≤ ·), 0 ≤ x := fun x hx =>
    h x ((List.perm_insertionSort _ l).subset hx)
  unfold median
  dsimp only
  split_ifs
  · have h1 := getD_nonneg hs ((l.insertionSort (· ≤ ·)).length / 2 - 1)
    have h2 := getD_nonneg hs ((l.insertionSort (· ≤ ·)).length / 2)
    positivity
  · exact getD_nonneg hs _

theorem intervalsOf_nonneg (l : List DbTransaction) :
    ∀ x ∈ intervalsOf l, 0 ≤ x := by
  intro x hx
  obtain ⟨p, -, rfl⟩ := List.mem_map.mp hx
  exact abs_nonneg _

theorem variance_nonneg (l : List ℚ) : 0 ≤ variance l := by
  unfold variance
  apply div_nonneg
  · apply List.sum_nonneg
    intro x hx
    obtain ⟨v, -, rfl⟩ := List.mem_map.mp hx
    positivity
  · positivity

theorem sortByDate_perm (g : List DbTransaction) : List.Perm (sortByDate g) g :=
  List.perm_insertionSort dateLe g

theorem sortByDate_sorted (g : List DbTransaction) :
    List.Sorted dateLe (sortByDate g) :=
  List.sorted_insertionSort dateLe g

end Recurring

namespace Monthly

/-- The transaction fields read by the savings-rate and budget components.
`date` is the ISO `YYYY-MM-DD` string (as a character list). -/
structure DbTransaction where
  date : Str
  amount : ℚ
  category : Str
  is_income : Bool
deriving DecidableEq, Inhabited

/-- `t.date.slice(0, 7)`: the `YYYY-MM` month prefix. -/
def monthOf (t : DbTransaction) : Str := t.date.take 7

/-- One month's summary (`MonthData`).  The presentational `label` field
("Jan 2026") is omitted: no analytical output reads it. -/
structure MonthData where
  month : Str
  income : ℚ
  expenses : ℚ
  savingsRate : ℚ
deriving DecidableEq, Inhabited

/-- Componentwise addition on `(income, expenses)` bucket entries. -/
def pairAdd (a b : ℚ × ℚ) : ℚ × ℚ := (a.1 + b.1, a.2 + b.2)

/-- A transaction's contribution to its month bucket: income and expense
sums accumulate independently. -/
def monthVal (t : DbTransaction) : ℚ × ℚ :=
  if t.is_income then (t.amount, 0) else (0, t.amount)

/-- The `monthMap` of `getMonthlyData`. -/
def monthBuckets (ts : List DbTransaction) : List (Str × (ℚ × ℚ)) :=
  accumulate pairAdd monthOf monthVal ts

/-- The sort on `Array.from(monthMap.entries())`: ascending by month key
(`localeCompare` on `YYYY-MM` strings is the lexicographic order). -/
def entryLe (a b : Str × (ℚ × ℚ)) : Prop := a.1 ≤ b.1

instance : DecidableRel entryLe := fun a b =>
  inferInstanceAs (Decidable (a.1 ≤ b.1))

instance : IsTotal (Str × (ℚ × ℚ)) entryLe := ⟨fun a b => le_total a.1 b.1⟩

instance : IsTrans (Str × (ℚ × ℚ)) entryLe := ⟨fun _ _ _ h1 h2 => le_trans h1 h2⟩

/-- `getMonthlyData`: bucket by month, sort oldest to newest, and compute
each month's savings rate, rounded to one decimal. -/
def getMonthlyData (transactions : List DbTransaction) : List MonthData :=
  let sorted := (monthBuckets transactions).insertionSort entryLe
  sorted.map (fun e =>
    let income := e.2.1
    let expenses := e.2.2
    let savingsRate := if 0 < income then (income - expenses) / income * 100 else 0
    { month := e.1
      income := income
      expenses := expenses
      savingsRate := round1 savingsRate })

/-- `calcRollingAverage`: savings rate of the aggregated last `months`
buckets (`data.slice(-months)`), or `null` when fewer than `months`
buckets exist or the aggregated income is zero. -/
def calcRollingAverage (data : List MonthData) (months : ℕ) : Option ℚ :=
  if data.length < months then none
  else
    let recent := data.drop (data.length - months)
    let totalIncome := (recent.map MonthData.income).sum
    let totalExpenses := (recent.map MonthData.expenses).sum
    if totalIncome = 0 then none
    else some ((jsRound ((totalIncome - totalExpenses) / totalIncome * 1000) : ℚ) / 10)

/-- `Math.round(x * 10) / 10` on reals, for the years-to-FI projection. -/
noncomputable def round1R (x : ℝ) : ℝ := ((⌊x * 10 + 1 / 2⌋ : ℤ) : ℝ) / 10

/-- `calcYearsToFI`: the FIRE projection from the current month's savings
rate (0–100 scale), with fixed real return `r = 0.05` and a 25× expense
FI number.  `Math.log` is modelled by `Real.log`. -/
noncomputable def calcYearsToFI (savingsRate : ℝ) : Option ℝ :=
  if savingsRate ≤ 0 then none
  else if 100 ≤ savingsRate then some 0
  else
    let s := savingsRate / 100
    let r : ℝ := 0.05
    some (round1R (Real.log (1 + 25 * (1 - s) * r / s) / Real.log (1 + r)))

/-- A budget row: one limit per category. -/
structure DbBudget where
  category : Str
  amount_limit : ℚ
deriving DecidableEq, Inhabited

/-- The derived per-budget status of the `Summary` component. -/
structure BudgetStatus where
  category : Str
  spent : ℚ
  limit : ℚ
  percentUsed : ℚ
deriving DecidableEq, Inhabited

/-- `spendingByCategory`: sum the month's expense amounts per category. -/
def spendingByCategory (monthExpenses : List DbTransaction) : List (Str × ℚ) :=
  accumulate (· + ·) (fun t => t.category) (fun t => t.amount) monthExpenses

/-- The budget-progress computation of the `Summary` component: filter the
transactions to the selected month (`date.startsWith(selectedMonth)`), keep
expenses, sum by category, and report each budget's consumption
(`spent/limit*100` when the limit is positive, else `0`; never capped). -/
def computeBudgetStatus (transactions : List DbTransaction) (selectedMonth : Str)
    (budgets : List DbBudget) : List BudgetStatus :=
  let monthTransactions := transactions.filter (fun t => decide (selectedMonth <+: t.date))
  let expenseTransactions := monthTransactions.filter (fun t => !t.is_income)
  let spending := spendingByCategory expenseTransactions
  budgets.map (fun budget =>
    let spent := valAt 0 spending budget.category
    let pct := if 0 < budget.amount_limit then spent / budget.amount_limit * 100 else 0
    { category := budget.category
      spent := spent
      limit := budget.amount_limit
      percentUsed := pct })

theorem pairAdd_zero_left (v : ℚ × ℚ) : pairAdd (0, 0) v = v := by
  cases v
  simp [pairAdd]

theorem pairAdd_zero_right (v : ℚ × ℚ) : pairAdd v (0, 0) = v := by
  cases v
  simp [pairAdd]

theorem pairAdd_assoc (a b c : ℚ × ℚ) :
    pairAdd (pairAdd a b) c = pairAdd a (pairAdd b c) := by
  simp [pairAdd, add_assoc]

theorem sumContrib_month (ts : List DbTransaction) (k : Str) :
    sumContrib pairAdd (0, 0) monthOf monthVal ts k
      = (((ts.filter (fun t => decide (monthOf t = k) && t.is_income)).map
            DbTransaction.amount).sum,
         ((ts.filter (fun t => decide (monthOf t = k) && !t.is_income)).map
            DbTransaction.amount).sum) := by
  induction ts with
  | nil => simp [sumContrib]
  | cons t ts ih =>
    simp only [sumContrib]
    by_cases hk : monthOf t = k
    · rw [if_pos hk, ih]
      cases hti : t.is_income <;>
        simp [List.filter_cons, hk, hti, pairAdd, monthVal]
    · rw [if_neg hk, ih]
      simp [List.filter_cons, hk]

theorem valAt_monthBuckets (ts : List DbTransaction) (k : Str) :
    valAt (0, 0) (monthBuckets ts) k
      = (((ts.filter (fun t => decide (monthOf t = k) && t.is_income)).map
            DbTransaction.amount).sum,
         ((ts.filter (fun t => decide (monthOf t = k) && !t.is_income)).map
            DbTransaction.amount).sum) := by
  rw [monthBuckets, valAt_accumulate pairAdd (0, 0) pairAdd_zero_left
    pairAdd_zero_right pairAdd_assoc, sumContrib_month]

theorem mem_getMonthlyData {ts : List DbTransaction} {e : MonthData}
    (h : e ∈ getMonthlyData ts) :
    ∃ p ∈ monthBuckets ts,
      e = { month := p.1, income := p.2.1, expenses := p.2.2,
            savingsRate :=
              round1 (if 0 < p.2.1 then (p.2.1 - p.2.2) / p.2.1 * 100 else 0) } := by
  unfold getMonthlyData at h
  rw [List.mem_map] at h
  obtain ⟨p, hp, he⟩ := h
  exact ⟨p, ((List.perm_insertionSort entryLe _).mem_iff).mp hp, he.symm⟩

theorem sumContrib_category (ts : List DbTransaction) (k : Str) :
    sumContrib (· + ·) 0 (fun t => t.category) (fun t => t.amount) ts k
      = ((ts.filter (fun t => decide (t.category = k))).map
          DbTransaction.amount).sum := by
  induction ts with
  | nil => simp [sumContrib]
  | cons t ts ih =>
    by_cases hk : t.category = k <;>
      simp [sumContrib, hk, ih, List.filter_cons]

theorem valAt_spendingByCategory (l : List DbTransaction) (c : Str) :
    valAt 0 (spendingByCategory l) c
      = ((l.filter (fun t => decide (t.category = c))).map
          DbTransaction.amount).sum := by
  rw [spendingByCategory, valAt_accumulate (· + ·) 0 (fun v => zero_add v)
    (fun v => add_zero v) (fun a b c2 => add_assoc a b c2), sumContrib_category]

end Monthly

/-! ## Claims -/

/-- C1: for every group of at least 2 expense transactions considered by
`detectRecurring`, the median of the consecutive day-intervals
(sorted-middle; average of the two middle values when the interval count is
even) is classified into a frequency bucket by inclusive closed ranges —
weekly iff the median is in [5,10], biweekly iff in [12,18], monthly iff in
[25,38], quarterly iff in [80,100] — and a group whose median lies outside
all four ranges yields no `RecurringItem`. -/
theorem C1_frequency_classification :
    (∀ m : ℚ,
      (Recurring.classifyFrequency m = some Recurring.Frequency.weekly ↔
        5 ≤ m ∧ m ≤ 10) ∧
      (Recurring.classifyFrequency m = some Recurring.Frequency.biweekly ↔
        12 ≤ m ∧ m ≤ 18) ∧
      (Recurring.classifyFrequency m = some Recurring.Frequency.monthly ↔
        25 ≤ m ∧ m ≤ 38) ∧
      (Recurring.classifyFrequency m = some Recurring.Frequency.quarterly ↔
        80 ≤ m ∧ m ≤ 100)) ∧
    ∀ g : List Recurring.DbTransaction, 2 ≤ g.length →
      Recurring.classifyFrequency
        (Recurring.median (Recurring.intervalsOf (Recurring.sortByDate g))) = none →
      Recurring.processGroup g = none := by
  constructor
  · intro m
    exact ⟨Recurring.classify_weekly_iff m, Recurring.classify_biweekly_iff m,
      Recurring.classify_monthly_iff m, Recurring.classify_quarterly_iff m⟩
  · intro g h2 hnone
    have hnlt : ¬ g.length < 2 := by omega
    simp [Recurring.processGroup, hnlt, hnone]

/-- A two-transaction group whose single interval is 3 days: the median 3
lies outside every range. -/
def exG1 : List Recurring.DbTransaction :=
  [{ date := 0, description := ['a'], amount := 5, category := ['c'], is_income := false },
   { date := 3, description := ['a'], amount := 5, category := ['c'], is_income := false }]

theorem C1_frequency_classification_witness :
    (2 ≤ exG1.length ∧
      Recurring.classifyFrequency
        (Recurring.median (Recurring.intervalsOf (Recurring.sortByDate exG1))) = none) ∧
    Recurring.processGroup exG1 = none :=
  ⟨⟨by norm_num [exG1],
    by
      norm_num [exG1, Recurring.sortByDate, Recurring.intervalsOf, Recurring.median,
        Recurring.classifyFrequency, Recurring.daysBetween, Recurring.dateLe,
        List.insertionSort, List.orderedInsert]⟩,
   C1_frequency_classification.2 exG1 (by norm_num [exG1])
    (by
      norm_num [exG1, Recurring.sortByDate, Recurring.intervalsOf, Recurring.median,
        Recurring.classifyFrequency, Recurring.daysBetween, Recurring.dateLe,
        List.insertionSort, List.orderedInsert])⟩

/-- C2: for every group that received a frequency classification,
`detectRecurring` discards the group if and only if the population standard
deviation of its consecutive day-intervals (variance divided by `N`, not
`N - 1`) exceeds `0.35` times the median interval.  (The companion witness
shows the group with intervals `[7,7,7,35]` is excluded even though its
median 7 lies in the weekly range.) -/
theorem C2_consistency_filter (g : List Recurring.DbTransaction)
    (f : Recurring.Frequency) (h2 : 2 ≤ g.length)
    (hf : Recurring.classifyFrequency
      (Recurring.median (Recurring.intervalsOf (Recurring.sortByDate g))) = some f) :
    Recurring.processGroup g = none ↔
      (0.35 : ℝ) *
          ((Recurring.median (Recurring.intervalsOf (Recurring.sortByDate g)) : ℚ) : ℝ) <
        Real.sqrt
          ((Recurring.variance (Recurring.intervalsOf (Recurring.sortByDate g)) : ℚ) : ℝ) := by
  have hnlt : ¬ g.length < 2 := by omega
  have hM0 : 0 ≤ Recurring.median (Recurring.intervalsOf (Recurring.sortByDate g)) :=
    Recurring.median_nonneg (Recurring.intervalsOf_nonneg _)
  have hsq : Recurring.processGroup g = none ↔
      (Recurring.median (Recurring.intervalsOf (Recurring.sortByDate g)) * (0.35 : ℚ)) ^ 2 <
        Recurring.variance (Recurring.intervalsOf (Recurring.sortByDate g)) := by
    by_cases hv : (Recurring.median (Recurring.intervalsOf (Recurring.sortByDate g)) *
        (0.35 : ℚ)) ^ 2 <
        Recurring.variance (Recurring.intervalsOf (Recurring.sortByDate g))
    · simp [Recurring.processGroup, hnlt, hf, hv]
    · simp [Recurring.processGroup, hnlt, hf, hv]
  rw [hsq]
  have hcast : (0.35 : ℝ) *
      ((Recurring.median (Recurring.intervalsOf (Recurring.sortByDate g)) : ℚ) : ℝ) =
      (((Recurring.median (Recurring.intervalsOf (Recurring.sortByDate g)) * (0.35 : ℚ) : ℚ)) : ℝ) := by
    push_cast
    ring
  have hnn : (0 : ℝ) ≤
      (((Recurring.median (Recurring.intervalsOf (Recurring.sortByDate g)) * (0.35 : ℚ) : ℚ)) : ℝ) := by
    have : (0 : ℚ) ≤
        Recurring.median (Recurring.intervalsOf (Recurring.sortByDate g)) * (0.35 : ℚ) :=
      mul_nonneg hM0 (by norm_num)
    exact_mod_cast this
  rw [hcast, Real.lt_sqrt hnn]
  constructor <;> intro h <;> exact_mod_cast h

/-- Five transactions 0, 7, 14, 21 and 56 days apart: intervals
`[7,7,7,35]`, median 7 (weekly range), standard deviation √147 ≈ 12.1 >
7 × 0.35. -/
def exG2 : List Recurring.DbTransaction :=
  [{ date := 0, description := ['n'], amount := 12, category := ['c'], is_income := false },
   { date := 7, description := ['n'], amount := 12, category := ['c'], is_income := false },
   { date := 14, description := ['n'], amount := 12, category := ['c'], is_income := false },
   { date := 21, description := ['n'], amount := 12, category := ['c'], is_income := false },
   { date := 56, description := ['n'], amount := 12, category := ['c'], is_income := false }]

theorem C2_consistency_filter_witness :
    (2 ≤ exG2.length ∧
      Recurring.classifyFrequency
        (Recurring.median (Recurring.intervalsOf (Recurring.sortByDate exG2))) =
          some Recurring.Frequency.weekly) ∧
    Recurring.processGroup exG2 = none := by
  have hmed : Recurring.median (Recurring.intervalsOf (Recurring.sortByDate exG2)) = 7 := by
    norm_num [exG2, Recurring.sortByDate, Recurring.intervalsOf, Recurring.median,
      Recurring.daysBetween, Recurring.dateLe, List.insertionSort, List.orderedInsert]
  have hvar : Recurring.variance (Recurring.intervalsOf (Recurring.sortByDate exG2)) = 147 := by
    norm_num [exG2, Recurring.sortByDate, Recurring.intervalsOf, Recurring.variance,
      Recurring.mean, Recurring.daysBetween, Recurring.dateLe, List.insertionSort,
      List.orderedInsert]
  have hcl : Recurring.classifyFrequency
      (Recurring.median (Recurring.intervalsOf (Recurring.sortByDate exG2))) =
        some Recurring.Frequency.weekly := by
    rw [hmed]
    norm_num [Recurring.classifyFrequency]
  refine ⟨⟨by norm_num [exG2], hcl⟩, ?_⟩
  refine (C2_consistency_filter exG2 Recurring.Frequency.weekly (by norm_num [exG2]) hcl).mpr ?_
  rw [hmed, hvar]
  have h1 : ((7 : ℚ) : ℝ) = 7 := by norm_num
  have h2 : ((147 : ℚ) : ℝ) = 147 := by norm_num
  rw [h1, h2]
  have h3 : (0 : ℝ) ≤ 0.35 * 7 := by norm_num
  rw [Real.lt_sqrt h3]
  norm_num

/-- C3: the sequence returned by `detectRecurring` is sorted in descending
order of `monthlyEquivalent(avgAmount, frequency)` (weekly ×4.33, biweekly
×2.17, monthly ×1, quarterly ×1/3); consequently, whenever the output
contains both, a weekly charge of 10 appears strictly before a monthly
charge of 40. -/
theorem C3_ranking (ts : List Recurring.DbTransaction) :
    List.Pairwise (fun a b =>
      Recurring.monthlyEquivalent b.avgAmount b.frequency ≤
        Recurring.monthlyEquivalent a.avgAmount a.frequency)
      (Recurring.detectRecurring ts) ∧
    ∀ i j : ℕ, i < (Recurring.detectRecurring ts).length →
      j < (Recurring.detectRecurring ts).length →
      ((Recurring.detectRecurring ts).getD i default).frequency =
        Recurring.Frequency.weekly →
      ((Recurring.detectRecurring ts).getD i default).avgAmount = 10 →
      ((Recurring.detectRecurring ts).getD j default).frequency =
        Recurring.Frequency.monthly →
      ((Recurring.detectRecurring ts).getD j default).avgAmount = 40 →
      i < j := by
  have hp : List.Pairwise Recurring.itemGe (Recurring.detectRecurring ts) :=
    List.sorted_insertionSort Recurring.itemGe _
  refine ⟨hp, ?_⟩
  intro i j hi hj hwf hwa hmf hma
  rcases lt_trichotomy i j with h | h | h
  · exact h
  · exfalso
    subst h
    rw [hwf] at hmf
    cases hmf
  · exfalso
    have hrel := List.pairwise_iff_get.mp hp ⟨j, hj⟩ ⟨i, hi⟩ h
    rw [List.getD_eq_getElem _ _ hi] at hwf hwa
    rw [List.getD_eq_getElem _ _ hj] at hmf hma
    unfold Recurring.itemGe at hrel
    rw [List.get_eq_getElem, List.get_eq_getElem, hwf, hwa, hmf, hma] at hrel
    norm_num [Recurring.monthlyEquivalent] at hrel

/-- A weekly charge of 10 (three charges 7 days apart) and a monthly charge
of 40 (three charges 30 days apart). -/
def exTs3 : List Recurring.DbTransaction :=
  [{ date := 0, description := ['a'], amount := 10, category := ['c'], is_income := false },
   { date := 7, description := ['a'], amount := 10, category := ['c'], is_income := false },
   { date := 14, description := ['a'], amount := 10, category := ['c'], is_income := false },
   { date := 0, description := ['b'], amount := 40, category := ['d'], is_income := false },
   { date := 30, description := ['b'], amount := 40, category := ['d'], is_income := false },
   { date := 60, description := ['b'], amount := 40, category := ['d'], is_income := false }]

theorem exTs3_eval :
    Recurring.detectRecurring exTs3 =
      [{ description := ['a'], category := ['c'], avgAmount := 10,
         frequency := Recurring.Frequency.weekly, occurrences := 3, lastDate := 14,
         nextExpected := 21, amounts := [10, 10, 10], priceChange := none },
       { description := ['b'], category := ['d'], avgAmount := 40,
         frequency := Recurring.Frequency.monthly, occurrences := 3, lastDate := 60,
         nextExpected := 90, amounts := [40, 40, 40], priceChange := none }] := by
  norm_num [exTs3, Recurring.detectRecurring, Recurring.groupByDescription,
    accumulate, upsert, Recurring.normKey, Recurring.trim, Recurring.toLower,
    Recurring.processGroup, Recurring.sortByDate, Recurring.intervalsOf,
    Recurring.median, Recurring.classifyFrequency, Recurring.daysBetween,
    Recurring.dateLe, Recurring.mean, Recurring.variance, Recurring.buildItem,
    Recurring.detectPriceChange, Recurring.addDays, Recurring.frequencyToDays,
    Recurring.itemGe, Recurring.monthlyEquivalent,
    List.insertionSort, List.orderedInsert, List.filter, List.foldl,
    List.filterMap, List.zip, List.zipWith, jsRound]

theorem C3_ranking_witness :
    (0 < (Recurring.detectRecurring exTs3).length ∧
      1 < (Recurring.detectRecurring exTs3).length ∧
      ((Recurring.detectRecurring exTs3).getD 0 default).frequency =
        Recurring.Frequency.weekly ∧
      ((Recurring.detectRecurring exTs3).getD 0 default).avgAmount = 10 ∧
      ((Recurring.detectRecurring exTs3).getD 1 default).frequency =
        Recurring.Frequency.monthly ∧
      ((Recurring.detectRecurring exTs3).getD 1 default).avgAmount = 40) ∧
    (0 : ℕ) < 1 :=
  ⟨⟨by rw [exTs3_eval]; norm_num, by rw [exTs3_eval]; norm_num,
    by rw [exTs3_eval]; rfl, by rw [exTs3_eval]; rfl,
    by rw [exTs3_eval]; rfl, by rw [exTs3_eval]; rfl⟩,
   (C3_ranking exTs3).2 0 1 (by rw [exTs3_eval]; norm_num)
    (by rw [exTs3_eval]; norm_num)
    (by rw [exTs3_eval]; rfl) (by rw [exTs3_eval]; rfl)
    (by rw [exTs3_eval]; rfl) (by rw [exTs3_eval]; rfl)⟩

/-- Two charges 7 days apart with amounts 0 and 5: the price-change guard
`prev > 0` fails even though `|5 - 0| > 0.01`. -/
def exTs4 : List Recurring.DbTransaction :=
  [{ date := 0, description := ['z'], amount := 0, category := ['c'], is_income := false },
   { date := 7, description := ['z'], amount := 5, category := ['c'], is_income := false }]

theorem exTs4_eval :
    Recurring.detectRecurring exTs4 =
      [{ description := ['z'], category := ['c'], avgAmount := 5 / 2,
         frequency := Recurring.Frequency.weekly, occurrences := 2, lastDate := 7,
         nextExpected := 14, amounts := [0, 5], priceChange := none }] := by
  norm_num [exTs4, Recurring.detectRecurring, Recurring.groupByDescription,
    accumulate, upsert, Recurring.normKey, Recurring.trim, Recurring.toLower,
    Recurring.processGroup, Recurring.sortByDate, Recurring.intervalsOf,
    Recurring.median, Recurring.classifyFrequency, Recurring.daysBetween,
    Recurring.dateLe, Recurring.mean, Recurring.variance, Recurring.buildItem,
    Recurring.detectPriceChange, Recurring.addDays, Recurring.frequencyToDays,
    Recurring.itemGe, Recurring.monthlyEquivalent,
    List.insertionSort, List.orderedInsert, List.filter, List.foldl,
    List.filterMap, List.zip, List.zipWith, jsRound]

/-- C4, counterexample: the returned item for `exTs4` has last two amounts
0 and 5 in chronological order, `|5 - 0| > 0.01`, yet `priceChange` is
null — the source additionally requires the previous amount to be
positive, which the claim omits. -/
theorem C4_price_change_counterexample :
    (Recurring.detectRecurring exTs4).length = 1 ∧
    ((Recurring.detectRecurring exTs4).getD 0 default).amounts = [0, 5] ∧
    (0.01 : ℚ) < |(5 : ℚ) - (0 : ℚ)| ∧
    ((Recurring.detectRecurring exTs4).getD 0 default).priceChange = none := by
  rw [exTs4_eval]
  norm_num

/-- C4, amended: for every `RecurringItem` returned by `detectRecurring`,
`priceChange` equals the percentage delta between the last two amounts in
chronological date order, rounded to 1 decimal place, whenever the earlier
of those two amounts is positive and their absolute difference exceeds
0.01, and is null otherwise. -/
theorem C4_price_change (ts : List Recurring.DbTransaction)
    (item : Recurring.RecurringItem) (h : item ∈ Recurring.detectRecurring ts) :
    2 ≤ item.amounts.length ∧
    item.priceChange =
      (if 0 < item.amounts.getD (item.amounts.length - 2) 0 ∧
          (0.01 : ℚ) < |item.amounts.getD (item.amounts.length - 1) 0 -
            item.amounts.getD (item.amounts.length - 2) 0| then
        some ((jsRound ((item.amounts.getD (item.amounts.length - 1) 0 -
            item.amounts.getD (item.amounts.length - 2) 0) /
            item.amounts.getD (item.amounts.length - 2) 0 * 1000) : ℚ) / 10)
      else none) := by
  obtain ⟨k, g, hg, hp⟩ := Recurring.mem_detectRecurring h
  obtain ⟨h2, f, hf, hv, rfl⟩ := (Recurring.processGroup_eq_some_iff g item).mp hp
  have hlen : 2 ≤ ((Recurring.sortByDate g).map Recurring.DbTransaction.amount).length := by
    rw [List.length_map, (Recurring.sortByDate_perm g).length_eq]
    exact h2
  constructor
  · simpa [Recurring.buildItem] using hlen
  · simp only [Recurring.buildItem, Recurring.detectPriceChange, if_pos hlen]

/-- Two charges 7 days apart with amounts 10 and 12: a 20% price rise. -/
def exTs4b : List Recurring.DbTransaction :=
  [{ date := 0, description := ['w'], amount := 10, category := ['c'], is_income := false },
   { date := 7, description := ['w'], amount := 12, category := ['c'], is_income := false }]

/-- The item detected for `exTs4b`. -/
def ex4bItem : Recurring.RecurringItem :=
  { description := ['w'], category := ['c'], avgAmount := 11,
    frequency := Recurring.Frequency.weekly, occurrences := 2, lastDate := 7,
    nextExpected := 14, amounts := [10, 12], priceChange := some 20 }

theorem exTs4b_eval : Recurring.detectRecurring exTs4b = [ex4bItem] := by
  norm_num [exTs4b, ex4bItem, Recurring.detectRecurring, Recurring.groupByDescription,
    accumulate, upsert, Recurring.normKey, Recurring.trim, Recurring.toLower,
    Recurring.processGroup, Recurring.sortByDate, Recurring.intervalsOf,
    Recurring.median, Recurring.classifyFrequency, Recurring.daysBetween,
    Recurring.dateLe, Recurring.mean, Recurring.variance, Recurring.buildItem,
    Recurring.detectPriceChange, Recurring.addDays, Recurring.frequencyToDays,
    Recurring.itemGe, Recurring.monthlyEquivalent,
    List.insertionSort, List.orderedInsert, List.filter, List.foldl,
    List.filterMap, List.zip, List.zipWith, jsRound]

theorem C4_price_change_witness :
    ex4bItem ∈ Recurring.detectRecurring exTs4b ∧
    (2 ≤ ex4bItem.amounts.length ∧
      ex4bItem.priceChange =
        (if 0 < ex4bItem.amounts.getD (ex4bItem.amounts.length - 2) 0 ∧
            (0.01 : ℚ) < |ex4bItem.amounts.getD (ex4bItem.amounts.length - 1) 0 -
              ex4bItem.amounts.getD (ex4bItem.amounts.length - 2) 0| then
          some ((jsRound ((ex4bItem.amounts.getD (ex4bItem.amounts.length - 1) 0 -
              ex4bItem.amounts.getD (ex4bItem.amounts.length - 2) 0) /
              ex4bItem.amounts.getD (ex4bItem.amounts.length - 2) 0 * 1000) : ℚ) / 10)
        else none)) :=
  have hm : ex4bItem ∈ Recurring.detectRecurring exTs4b := by
    rw [exTs4b_eval]
    exact List.mem_singleton.mpr rfl
  ⟨hm, C4_price_change exTs4b ex4bItem hm⟩

/-- C9: every `RecurringItem` returned by `detectRecurring` is built from a
group of at least 2 transactions, all of which are expenses (`is_income`
false) drawn from the input and sharing the same description after trim and
lowercase normalization; in particular `detectRecurring` of the empty list
is the empty list, without error. -/
theorem C9_group_invariants :
    Recurring.detectRecurring [] = [] ∧
    ∀ (ts : List Recurring.DbTransaction) (item : Recurring.RecurringItem),
      item ∈ Recurring.detectRecurring ts →
      ∃ k g, (k, g) ∈ Recurring.groupByDescription (ts.filter (fun t => !t.is_income)) ∧
        Recurring.processGroup g = some item ∧
        2 ≤ g.length ∧
        ∀ t ∈ g, t.is_income = false ∧ Recurring.normKey t.description = k ∧ t ∈ ts := by
  constructor
  · rfl
  · intro ts item h
    obtain ⟨k, g, hg, hp⟩ := Recurring.mem_detectRecurring h
    have hfilter := Recurring.mem_groupByDescription hg
    refine ⟨k, g, hg, hp, ((Recurring.processGroup_eq_some_iff g item).mp hp).1, ?_⟩
    intro t ht
    rw [hfilter] at ht
    have hsplit := List.mem_filter.mp ht
    have hexp := List.mem_filter.mp hsplit.1
    refine ⟨by simpa using hexp.2, by simpa using hsplit.2, hexp.1⟩

/-- Two expense charges of 6 each 30 days apart sharing the key `"s"`,
plus one income transaction that the detector must ignore. -/
def exTs9 : List Recurring.DbTransaction :=
  [{ date := 0, description := ['s'], amount := 6, category := ['c'], is_income := false },
   { date := 1, description := ['p'], amount := 9, category := ['c'], is_income := true },
   { date := 30, description := ['s'], amount := 6, category := ['c'], is_income := false }]

/-- The item detected for `exTs9`. -/
def ex9Item : Recurring.RecurringItem :=
  { description := ['s'], category := ['c'], avgAmount := 6,
    frequency := Recurring.Frequency.monthly, occurrences := 2, lastDate := 30,
    nextExpected := 60, amounts := [6, 6], priceChange := none }

theorem exTs9_eval : Recurring.detectRecurring exTs9 = [ex9Item] := by
  norm_num [exTs9, ex9Item, Recurring.detectRecurring, Recurring.groupByDescription,
    accumulate, upsert, Recurring.normKey, Recurring.trim, Recurring.toLower,
    Recurring.processGroup, Recurring.sortByDate, Recurring.intervalsOf,
    Recurring.median, Recurring.classifyFrequency, Recurring.daysBetween,
    Recurring.dateLe, Recurring.mean, Recurring.variance, Recurring.buildItem,
    Recurring.detectPriceChange, Recurring.addDays, Recurring.frequencyToDays,
    Recurring.itemGe, Recurring.monthlyEquivalent,
    List.insertionSort, List.orderedInsert, List.filter, List.foldl,
    List.filterMap, List.zip, List.zipWith, jsRound]

theorem C9_group_invariants_witness :
    ex9Item ∈ Recurring.detectRecurring exTs9 ∧
    ∃ k g, (k, g) ∈ Recurring.groupByDescription (exTs9.filter (fun t => !t.is_income)) ∧
      Recurring.processGroup g = some ex9Item ∧
      2 ≤ g.length ∧
      ∀ t ∈ g, t.is_income = false ∧ Recurring.normKey t.description = k ∧ t ∈ exTs9 :=
  have hm : ex9Item ∈ Recurring.detectRecurring exTs9 := by
    rw [exTs9_eval]
    exact List.mem_singleton.mpr rfl
  ⟨hm, C9_group_invariants.2 exTs9 ex9Item hm⟩

/-- C10: every `RecurringItem` returned by `detectRecurring` copies its
`description` and `category` verbatim from a latest-dated transaction of
its group, `lastDate` is that transaction's date, and `occurrences` equals
the number of transactions in the group. -/
theorem C10_latest_transaction_fields (ts : List Recurring.DbTransaction)
    (item : Recurring.RecurringItem) (h : item ∈ Recurring.detectRecurring ts) :
    ∃ k g, (k, g) ∈ Recurring.groupByDescription (ts.filter (fun t => !t.is_income)) ∧
      Recurring.processGroup g = some item ∧
      item.occurrences = g.length ∧
      ∃ t ∈ g, (∀ u ∈ g, u.date ≤ t.date) ∧
        item.description = t.description ∧
        item.category = t.category ∧
        item.lastDate = t.date := by
  obtain ⟨k, g, hg, hp⟩ := Recurring.mem_detectRecurring h
  obtain ⟨h2, f, hf, hv, rfl⟩ := (Recurring.processGroup_eq_some_iff g item).mp hp
  have hperm := Recurring.sortByDate_perm g
  have hne : Recurring.sortByDate g ≠ [] := by
    intro hnil
    have hlen := hperm.length_eq
    rw [hnil] at hlen
    simp at hlen
    omega
  refine ⟨k, g, hg, hp, ?_, ?_⟩
  · simpa [Recurring.buildItem] using hperm.length_eq
  · refine ⟨(Recurring.sortByDate g).getLast hne,
      hperm.mem_iff.mp (List.getLast_mem hne), ?_, ?_, ?_, ?_⟩
    · intro u hu
      exact Recurring.sorted_le_getLast (Recurring.sortByDate_sorted g) hne u
        (hperm.mem_iff.mpr hu)
    · simp only [Recurring.buildItem]
      rw [Recurring.getLastD_of_ne_nil hne]
    · simp only [Recurring.buildItem]
      rw [Recurring.getLastD_of_ne_nil hne]
    · simp only [Recurring.buildItem]
      rw [Recurring.getLastD_of_ne_nil hne]

/-- Two expense charges 30 days apart whose descriptions normalize to the
same key but differ in casing; the detected item must surface the latest
transaction's original casing. -/
def exTs10 : List Recurring.DbTransaction :=
  [{ date := 0, description := ['a'], amount := 8, category := ['c'], is_income := false },
   { date := 30, description := ['A'], amount := 8, category := ['d'], is_income := false }]

/-- The item detected for `exTs10`. -/
def ex10Item : Recurring.RecurringItem :=
  { description := ['A'], category := ['d'], avgAmount := 8,
    frequency := Recurring.Frequency.monthly, occurrences := 2, lastDate := 30,
    nextExpected := 60, amounts := [8, 8], priceChange := none }

theorem exTs10_eval : Recurring.detectRecurring exTs10 = [ex10Item] := by
  norm_num [exTs10, ex10Item, Recurring.detectRecurring, Recurring.groupByDescription,
    accumulate, upsert, Recurring.normKey, Recurring.trim, Recurring.toLower,
    Recurring.processGroup, Recurring.sortByDate, Recurring.intervalsOf,
    Recurring.median, Recurring.classifyFrequency, Recurring.daysBetween,
    Recurring.dateLe, Recurring.mean, Recurring.variance, Recurring.buildItem,
    Recurring.detectPriceChange, Recurring.addDays, Recurring.frequencyToDays,
    Recurring.itemGe, Recurring.monthlyEquivalent,
    List.insertionSort, List.orderedInsert, List.filter, List.foldl,
    List.filterMap, List.zip, List.zipWith, jsRound]

theorem C10_latest_transaction_fields_witness :
    ex10Item ∈ Recurring.detectRecurring exTs10 ∧
    ∃ k g, (k, g) ∈ Recurring.groupByDescription (exTs10.filter (fun t => !t.is_income)) ∧
      Recurring.processGroup g = some ex10Item ∧
      ex10Item.occurrences = g.length ∧
      ∃ t ∈ g, (∀ u ∈ g, u.date ≤ t.date) ∧
        ex10Item.description = t.description ∧
        ex10Item.category = t.category ∧
        ex10Item.lastDate = t.date :=
  have hm : ex10Item ∈ Recurring.detectRecurring exTs10 := by
    rw [exTs10_eval]
    exact List.mem_singleton.mpr rfl
  ⟨hm, C10_latest_transaction_fields exTs10 ex10Item hm⟩

/-- C5: the monthly-summary aggregator produces exactly one `MonthData`
per distinct `YYYY-MM` month prefix present (no duplicates, and a month
appears iff some transaction carries it), sorted oldest to newest; for
each month, income sums the amounts with `is_income` true and expenses the
amounts with `is_income` false (never mixed), and `savingsRate` is
`(income - expenses) / income * 100` rounded to 1 decimal when income is
positive and `0` otherwise. -/
theorem C5_monthly_summaries (ts : List Monthly.DbTransaction) :
    ((Monthly.getMonthlyData ts).map Monthly.MonthData.month).Nodup ∧
    (∀ k : Str, k ∈ (Monthly.getMonthlyData ts).map Monthly.MonthData.month ↔
      k ∈ ts.map Monthly.monthOf) ∧
    List.Pairwise (fun a b => a.month ≤ b.month) (Monthly.getMonthlyData ts) ∧
    ∀ e ∈ Monthly.getMonthlyData ts,
      e.income = ((ts.filter (fun t => decide (Monthly.monthOf t = e.month) &&
        t.is_income)).map Monthly.DbTransaction.amount).sum ∧
      e.expenses = ((ts.filter (fun t => decide (Monthly.monthOf t = e.month) &&
        !t.is_income)).map Monthly.DbTransaction.amount).sum ∧
      e.savingsRate =
        (if 0 < e.income then round1 ((e.income - e.expenses) / e.income * 100)
         else 0) := by
  have hmap : (Monthly.getMonthlyData ts).map Monthly.MonthData.month =
      ((Monthly.monthBuckets ts).insertionSort Monthly.entryLe).map Prod.fst := by
    simp only [Monthly.getMonthlyData, List.map_map]
    rfl
  have hperm : ((Monthly.monthBuckets ts).insertionSort Monthly.entryLe).Perm
      (Monthly.monthBuckets ts) := List.perm_insertionSort _ _
  have hpermmap := hperm.map Prod.fst
  refine ⟨?_, ?_, ?_, ?_⟩
  · rw [hmap]
    exact hpermmap.nodup_iff.mpr
      (nodup_keys_accumulate Monthly.pairAdd Monthly.monthOf Monthly.monthVal ts)
  · intro k
    rw [hmap, hpermmap.mem_iff]
    unfold Monthly.monthBuckets
    rw [mem_keys_accumulate Monthly.pairAdd Monthly.monthOf Monthly.monthVal ts k,
      List.mem_map]
  · have hs : List.Sorted Monthly.entryLe
        ((Monthly.monthBuckets ts).insertionSort Monthly.entryLe) :=
      List.sorted_insertionSort _ _
    unfold Monthly.getMonthlyData
    rw [List.pairwise_map]
    exact hs
  · intro e he
    obtain ⟨p, hpmem, rfl⟩ := Monthly.mem_getMonthlyData he
    have hpair : (p.1, p.2) ∈ Monthly.monthBuckets ts := by simpa using hpmem
    have halo : alookup (Monthly.monthBuckets ts) p.1 = some p.2 :=
      alookup_eq_some_of_mem
        (nodup_keys_accumulate Monthly.pairAdd Monthly.monthOf Monthly.monthVal ts) hpair
    have hval : valAt (0, 0) (Monthly.monthBuckets ts) p.1 = p.2 := by
      unfold valAt
      rw [halo, Option.getD_some]
    rw [Monthly.valAt_monthBuckets] at hval
    have hinc : p.2.1 = ((ts.filter (fun t => decide (Monthly.monthOf t = p.1) &&
        t.is_income)).map Monthly.DbTransaction.amount).sum := by
      simpa using (congrArg Prod.fst hval).symm
    have hexp : p.2.2 = ((ts.filter (fun t => decide (Monthly.monthOf t = p.1) &&
        !t.is_income)).map Monthly.DbTransaction.amount).sum := by
      simpa using (congrArg Prod.snd hval).symm
    refine ⟨by simpa using hinc, by simpa using hexp, ?_⟩
    show round1 (if 0 < p.2.1 then (p.2.1 - p.2.2) / p.2.1 * 100 else 0) =
      if 0 < p.2.1 then round1 ((p.2.1 - p.2.2) / p.2.1 * 100) else 0
    by_cases hpos : 0 < p.2.1
    · simp [hpos]
    · simp [hpos, round1_zero]

/-- One income of 1000 and one expense of 700, both in January 2024. -/
def exTs5 : List Monthly.DbTransaction :=
  [{ date := ['2', '0', '2', '4', '-', '0', '1', '-', '0', '5'], amount := 1000,
     category := ['s'], is_income := true },
   { date := ['2', '0', '2', '4', '-', '0', '1', '-', '2', '0'], amount := 700,
     category := ['r'], is_income := false }]

/-- The summary computed for `exTs5`: savings rate 30.0. -/
def ex5Month : Monthly.MonthData :=
  { month := ['2', '0', '2', '4', '-', '0', '1'], income := 1000, expenses := 700,
    savingsRate := 30 }

theorem exTs5_eval : Monthly.getMonthlyData exTs5 = [ex5Month] := by
  norm_num [exTs5, ex5Month, Monthly.getMonthlyData, Monthly.monthBuckets, accumulate,
    upsert, Monthly.monthOf, Monthly.monthVal, Monthly.pairAdd, Monthly.entryLe,
    List.insertionSort, List.orderedInsert, List.foldl, List.take, round1, jsRound]

theorem C5_monthly_summaries_witness :
    ex5Month ∈ Monthly.getMonthlyData exTs5 ∧
    (ex5Month.income = ((exTs5.filter (fun t =>
        decide (Monthly.monthOf t = ex5Month.month) && t.is_income)).map
        Monthly.DbTransaction.amount).sum ∧
      ex5Month.expenses = ((exTs5.filter (fun t =>
        decide (Monthly.monthOf t = ex5Month.month) && !t.is_income)).map
        Monthly.DbTransaction.amount).sum ∧
      ex5Month.savingsRate =
        (if 0 < ex5Month.income then
          round1 ((ex5Month.income - ex5Month.expenses) / ex5Month.income * 100)
         else 0)) :=
  have hm : ex5Month ∈ Monthly.getMonthlyData exTs5 := by
    rw [exTs5_eval]
    exact List.mem_singleton.mpr rfl
  ⟨hm, (C5_monthly_summaries exTs5).2.2.2 ex5Month hm⟩

/-- C6: for the latest month's savings rate `s` on the 0–100 scale, the
years-to-financial-independence estimate is null when `s ≤ 0`, is 0 when
`s ≥ 100`, and otherwise equals
`ln(1 + 25·(1 − s/100)·r / (s/100)) / ln(1 + r)` with fixed `r = 0.05`,
rounded to 1 decimal place. -/
theorem C6_years_to_fi (s : ℝ) :
    (s ≤ 0 → Monthly.calcYearsToFI s = none) ∧
    (100 ≤ s → Monthly.calcYearsToFI s = some 0) ∧
    (0 < s → s < 100 →
      Monthly.calcYearsToFI s =
        some (Monthly.round1R
          (Real.log (1 + 25 * (1 - s / 100) * 0.05 / (s / 100)) /
            Real.log (1 + 0.05)))) := by
  refine ⟨fun h => ?_, fun h => ?_, fun h1 h2 => ?_⟩
  · simp [Monthly.calcYearsToFI, h]
  · have h0 : ¬ s ≤ 0 := by linarith
    simp [Monthly.calcYearsToFI, h0, h]
  · have h0 : ¬ s ≤ 0 := by linarith
    have h100 : ¬ 100 ≤ s := by linarith
    simp [Monthly.calcYearsToFI, h0, h100]

theorem C6_years_to_fi_witness :
    (0 : ℝ) < 50 ∧ (50 : ℝ) < 100 ∧
    Monthly.calcYearsToFI 50 =
      some (Monthly.round1R
        (Real.log (1 + 25 * (1 - 50 / 100) * 0.05 / (50 / 100)) /
          Real.log (1 + 0.05))) :=
  ⟨by norm_num, by norm_num,
   (C6_years_to_fi 50).2.2 (by norm_num) (by norm_num)⟩

/-- C7, counterexample: three monthly buckets are present (so not "fewer
than N"), yet the 3-month rolling average is null because the summed
income of the window is zero — the claim's "null exactly when fewer than N
buckets are present" fails. -/
def exTs7 : List Monthly.DbTransaction :=
  [{ date := ['2', '0', '2', '4', '-', '0', '1', '-', '0', '5'], amount := 10,
     category := ['r'], is_income := false },
   { date := ['2', '0', '2', '4', '-', '0', '2', '-', '0', '5'], amount := 20,
     category := ['r'], is_income := false },
   { date := ['2', '0', '2', '4', '-', '0', '3', '-', '0', '5'], amount := 30,
     category := ['r'], is_income := false }]

theorem C7_rolling_average_counterexample :
    (Monthly.getMonthlyData exTs7).length = 3 ∧
    ¬ (Monthly.getMonthlyData exTs7).length < 3 ∧
    Monthly.calcRollingAverage (Monthly.getMonthlyData exTs7) 3 = none := by
  have hev : Monthly.getMonthlyData exTs7 =
      [{ month := ['2', '0', '2', '4', '-', '0', '1'], income := 0, expenses := 10,
         savingsRate := 0 },
       { month := ['2', '0', '2', '4', '-', '0', '2'], income := 0, expenses := 20,
         savingsRate := 0 },
       { month := ['2', '0', '2', '4', '-', '0', '3'], income := 0, expenses := 30,
         savingsRate := 0 }] := by
    norm_num +decide [exTs7, Monthly.getMonthlyData, Monthly.monthBuckets, accumulate,
      upsert, Monthly.monthOf, Monthly.monthVal, Monthly.pairAdd, Monthly.entryLe,
      List.insertionSort, List.orderedInsert, List.foldl, List.take, round1, jsRound]
  rw [hev]
  norm_num [Monthly.calcRollingAverage]

/-- C7, amended: the rolling average over the last N months (N ∈ {3, 12})
is null exactly when fewer than N monthly buckets are present **or the
summed income of the last N buckets is zero**; otherwise it equals the
savings-rate ratio formula applied to the summed income and summed
expenses of the last N buckets (not the average of per-month rates),
rounded to 1 decimal. -/
theorem C7_rolling_average (data : List Monthly.MonthData) (n : ℕ)
    (hn : n = 3 ∨ n = 12) :
    (Monthly.calcRollingAverage data n = none ↔
      data.length < n ∨
        ((data.drop (data.length - n)).map Monthly.MonthData.income).sum = 0) ∧
    (n ≤ data.length →
      ((data.drop (data.length - n)).map Monthly.MonthData.income).sum ≠ 0 →
      Monthly.calcRollingAverage data n =
        some (round1
          ((((data.drop (data.length - n)).map Monthly.MonthData.income).sum -
              ((data.drop (data.length - n)).map Monthly.MonthData.expenses).sum) /
            ((data.drop (data.length - n)).map Monthly.MonthData.income).sum * 100))) := by
  constructor
  · by_cases h1 : data.length < n
    · simp [Monthly.calcRollingAverage, h1]
    · by_cases h2 : ((data.drop (data.length - n)).map Monthly.MonthData.income).sum = 0 <;>
        simp [Monthly.calcRollingAverage, h1, h2]
  · intro h1 h2
    have h1n : ¬ data.length < n := by omega
    simp only [Monthly.calcRollingAverage, if_neg h1n, if_neg h2, round1,
      Option.some.injEq]
    congr 2
    ring_nf

/-- Three months of data, incomes 100/200/300 and expenses 40/100/130:
the 3-month aggregate savings rate is (600 − 270)/600 × 100 = 55.0. -/
def ex7Data : List Monthly.MonthData :=
  [{ month := ['2', '0', '2', '4', '-', '0', '1'], income := 100, expenses := 40,
     savingsRate := 60 },
   { month := ['2', '0', '2', '4', '-', '0', '2'], income := 200, expenses := 100,
     savingsRate := 50 },
   { month := ['2', '0', '2', '4', '-', '0', '3'], income := 300, expenses := 130,
     savingsRate := 56.7 }]

theorem C7_rolling_average_witness :
    ((3 : ℕ) = 3 ∨ (3 : ℕ) = 12) ∧
    3 ≤ ex7Data.length ∧
    ((ex7Data.drop (ex7Data.length - 3)).map Monthly.MonthData.income).sum ≠ 0 ∧
    Monthly.calcRollingAverage ex7Data 3 =
      some (round1
        ((((ex7Data.drop (ex7Data.length - 3)).map Monthly.MonthData.income).sum -
            ((ex7Data.drop (ex7Data.length - 3)).map Monthly.MonthData.expenses).sum) /
          ((ex7Data.drop (ex7Data.length - 3)).map Monthly.MonthData.income).sum * 100)) :=
  ⟨Or.inl rfl, by norm_num [ex7Data], by norm_num [ex7Data],
   (C7_rolling_average ex7Data 3 (Or.inl rfl)).2 (by norm_num [ex7Data])
     (by norm_num [ex7Data])⟩

/-- C8: for every budget in the supplied list, the budget status for the
selected month reports `spent` = sum of the amounts of expense transactions
(`is_income` false) of that budget's category whose date falls in the
selected month (`date.startsWith(selectedMonth)`), and
`percentUsed = spent/limit*100` when the limit is positive and 0 otherwise,
with no upper cap; a budgeted category with no spend still appears (one
status per budget, in order) with `spent = 0`. -/
theorem C8_budget_status (ts : List Monthly.DbTransaction) (selectedMonth : Str)
    (budgets : List Monthly.DbBudget) (i : ℕ) (hi : i < budgets.length) :
    (Monthly.computeBudgetStatus ts selectedMonth budgets).length = budgets.length ∧
    (Monthly.computeBudgetStatus ts selectedMonth budgets).getD i default =
      { category := (budgets.getD i default).category,
        spent := ((ts.filter (fun t => decide (selectedMonth <+: t.date) &&
            !t.is_income &&
            decide (t.category = (budgets.getD i default).category))).map
            Monthly.DbTransaction.amount).sum,
        limit := (budgets.getD i default).amount_limit,
        percentUsed :=
          if 0 < (budgets.getD i default).amount_limit then
            ((ts.filter (fun t => decide (selectedMonth <+: t.date) &&
              !t.is_income &&
              decide (t.category = (budgets.getD i default).category))).map
              Monthly.DbTransaction.amount).sum /
              (budgets.getD i default).amount_limit * 100
          else 0 } := by
  have hspent : ∀ c : Str,
      valAt 0 (Monthly.spendingByCategory
        ((ts.filter (fun t => decide (selectedMonth <+: t.date))).filter
          (fun t => !t.is_income))) c
        = ((ts.filter (fun t => decide (selectedMonth <+: t.date) && !t.is_income &&
            decide (t.category = c))).map Monthly.DbTransaction.amount).sum := by
    intro c
    rw [Monthly.valAt_spendingByCategory, List.filter_filter, List.filter_filter]
    congr 2
    apply List.filter_congr
    intro t _
    simp [Bool.and_comm, Bool.and_assoc, Bool.and_left_comm]
  constructor
  · simp [Monthly.computeBudgetStatus]
  · have hlen2 : i < (budgets.map (fun budget =>
        let spent := valAt 0 (Monthly.spendingByCategory
          ((ts.filter (fun t => decide (selectedMonth <+: t.date))).filter
            (fun t => !t.is_income))) budget.category
        let pct := if 0 < budget.amount_limit then spent / budget.amount_limit * 100 else 0
        ({ category := budget.category, spent := spent, limit := budget.amount_limit,
           percentUsed := pct } : Monthly.BudgetStatus))).length := by
      simpa using hi
    unfold Monthly.computeBudgetStatus
    rw [List.getD_eq_getElem _ _ hlen2, List.getElem_map,
      ← List.getD_eq_getElem budgets default hi]
    rw [hspent]

/-- The selected month for the budget example: January 2024. -/
def exMonth : Str := ['2', '0', '2', '4', '-', '0', '1']

/-- One in-month expense of 150 in category `"f"`, one out-of-month expense
in the same category, and no spend at all in category `"g"`. -/
def exTs8 : List Monthly.DbTransaction :=
  [{ date := ['2', '0', '2', '4', '-', '0', '1', '-', '1', '5'], amount := 150,
     category := ['f'], is_income := false },
   { date := ['2', '0', '2', '4', '-', '0', '2', '-', '1', '0'], amount := 30,
     category := ['f'], is_income := false }]

/-- Budgets: 100 for category `"f"`, 50 for category `"g"`. -/
def exBudgets : List Monthly.DbBudget :=
  [{ category := ['f'], amount_limit := 100 },
   { category := ['g'], amount_limit := 50 }]

theorem C8_budget_status_witness :
    0 < exBudgets.length ∧ 1 < exBudgets.length ∧
    ((Monthly.computeBudgetStatus exTs8 exMonth exBudgets).getD 0 default).spent = 150 ∧
    ((Monthly.computeBudgetStatus exTs8 exMonth exBudgets).getD 0 default).limit = 100 ∧
    ((Monthly.computeBudgetStatus exTs8 exMonth exBudgets).getD 0 default).percentUsed
      = 150 ∧
    ((Monthly.computeBudgetStatus exTs8 exMonth exBudgets).getD 1 default).spent = 0 := by
  have h0 := (C8_budget_status exTs8 exMonth exBudgets 0 (by norm_num [exBudgets])).2
  have h1 := (C8_budget_status exTs8 exMonth exBudgets 1 (by norm_num [exBudgets])).2
  refine ⟨by norm_num [exBudgets], by norm_num [exBudgets], ?_, ?_, ?_, ?_⟩
  · rw [h0]
    norm_num +decide [exTs8, exBudgets, exMonth, List.filter]
  · rw [h0]
    norm_num [exBudgets]
  · rw [h0]
    norm_num +decide [exTs8, exBudgets, exMonth, List.filter]
  · rw [h1]
    norm_num +decide [exTs8, exBudgets, exMonth, List.filter]

end TrackFi
